import Mathlib

/-!
Shallow embedding of the RPT-lightswarm protocol and delivery engine
(MDP codec, SLIP framing, fade planning, serial transmit queue, address
resolution and the in-memory simulator), together with proofs of the
behavioural properties stated in the specification.

Conventions: byte sequences are `List Nat`; machine integers are `Nat`
or `Int`; JavaScript fractional arithmetic (`x / 10`, `Math.round`,
`Math.ceil`) is modelled exactly as integer arithmetic on numerator and
denominator, with bridging lemmas relating it to rational floor and
ceiling; code that throws returns `Except String`.
-/

deriving instance DecidableEq for Except

/-- `Math.round (num / den)` for natural `num` and positive `den`.
JavaScript rounds half toward positive infinity, so the value is
`⌊num / den + 1 / 2⌋ = (2 * num + den) / (2 * den)` in natural division. -/
def jsRoundDiv (num den : Nat) : Nat := (2 * num + den) / (2 * den)

/-- `Math.ceil (num / den)` for natural `num` and positive `den`:
`(num + den - 1) / den` in natural division. -/
def jsCeilDiv (num den : Nat) : Nat := (num + den - 1) / den

/-! ## SLIP codec — src/src/mdp/slip.js -/

namespace Slip

def SLIP_END : Nat := 0xC0

def SLIP_ESC : Nat := 0xDB

def SLIP_ESC_END : Nat := 0xDC

def SLIP_ESC_ESC : Nat := 0xDD

/-- The per-byte escaping of `encode`'s switch statement. -/
def stuffByte (b : Nat) : List Nat :=
  if b = SLIP_END then [SLIP_ESC, SLIP_ESC_END]
  else if b = SLIP_ESC then [SLIP_ESC, SLIP_ESC_ESC]
  else [b]

/-- `encode` from slip.js: leading delimiter, byte-stuffed payload,
trailing delimiter. -/
def encode (data : List Nat) : List Nat :=
  SLIP_END :: (data.flatMap stuffByte ++ [SLIP_END])

/-- The state loop of `decode` from slip.js; the `Bool` is the
`escaping` flag. -/
def decodeAux : Bool → List Nat → List Nat
  | _, [] => []
  | true, b :: rest =>
    (if b = SLIP_ESC_END then SLIP_END
     else if b = SLIP_ESC_ESC then SLIP_ESC
     else b) :: decodeAux false rest
  | false, b :: rest =>
    if b = SLIP_END then decodeAux false rest
    else if b = SLIP_ESC then decodeAux true rest
    else b :: decodeAux false rest

/-- `decode` from slip.js. -/
def decode (buffer : List Nat) : List Nat := decodeAux false buffer

end Slip

/-! ## Command encoders — src/src/mdp/commands.js -/

namespace MDP

def ON : Nat := 0x20

def OFF : Nat := 0x21

def LEVEL : Nat := 0x22

def FADE : Nat := 0x23

def RGB_LEVEL : Nat := 0x2C

def FLASH : Nat := 0x2E

def RGB_FADE : Nat := 0x31

def BROADCAST_ADDRESS : Nat := 0xFFFF

/-- The clamp helper of commands.js:
`Math.max(min, Math.min(max, Math.round(val)))`.  Every call site passes
an integer-valued number, on which `Math.round` is the identity, so the
argument is modelled as an integer. -/
def clamp (val lo hi : Int) : Int := max lo (min hi val)

/-- A clamped field as the byte stored in the command array (the clamp
bounds used in the source are always non-negative). -/
def clampByte (val lo hi : Int) : Nat := (clamp val lo hi).toNat

/-- `addressToBytes` from commands.js; throws on an address outside
0..65535, otherwise returns `[(address >> 8) & 0xFF, address & 0xFF]`. -/
def addressToBytes (address : Int) : Except String (List Nat) :=
  if address < 0 ∨ address > 0xFFFF then
    Except.error "Invalid address. Must be 0-65535."
  else
    Except.ok [(address.toNat >>> 8) &&& 0xFF, address.toNat &&& 0xFF]

def buildOnCommand (address : Int) : Except String (List Nat) :=
  (addressToBytes address).map (· ++ [ON])

def buildOffCommand (address : Int) : Except String (List Nat) :=
  (addressToBytes address).map (· ++ [OFF])

def buildLevelCommand (address level : Int) : Except String (List Nat) :=
  (addressToBytes address).map (· ++ [LEVEL, clampByte level 0 255])

def buildFadeCommand (address level : Int) (interval : Int := 2) (step : Int := 5) :
    Except String (List Nat) :=
  (addressToBytes address).map
    (· ++ [FADE, clampByte level 0 255, clampByte interval 1 255, clampByte step 1 127])

def buildRgbLevelCommand (address red green blue : Int) : Except String (List Nat) :=
  (addressToBytes address).map
    (· ++ [RGB_LEVEL, clampByte red 0 255, clampByte green 0 255, clampByte blue 0 255])

/-- One channel's `{level, interval, step}` record for RGB_FADE. -/
structure FadeChannel where
  level : Int
  interval : Int
  step : Int

def buildRgbFadeCommand (address : Int) (red green blue : FadeChannel) :
    Except String (List Nat) :=
  (addressToBytes address).map (· ++ [RGB_FADE,
    clampByte red.level 0 255, clampByte red.interval 1 255, clampByte red.step 1 127,
    clampByte green.level 0 255, clampByte green.interval 1 255, clampByte green.step 1 127,
    clampByte blue.level 0 255, clampByte blue.interval 1 255, clampByte blue.step 1 127])

def buildFlashCommand (address levelA levelB flashSteps intervalA intervalB : Int) :
    Except String (List Nat) :=
  let steps := clampByte flashSteps 2 65535
  let intA := clampByte intervalA 1 65535
  let intB := clampByte intervalB 1 65535
  (addressToBytes address).map (· ++ [FLASH,
    (steps >>> 8) &&& 0xFF, steps &&& 0xFF,
    (intA >>> 8) &&& 0xFF, intA &&& 0xFF,
    (intB >>> 8) &&& 0xFF, intB &&& 0xFF,
    clampByte levelA 0 255, clampByte levelB 0 255])

end MDP

/-! ## Protocol engine — src/src/mdp/protocol.js -/

namespace Protocol

/-- XOR checksum of `calculateChecksum`, reduced to 8 bits. -/
def calculateChecksum (data : List Nat) : Nat :=
  (data.foldl (fun c b => c ^^^ b) 0) &&& 0xFF

/-- `buildPacket`: append the checksum, then SLIP-encode. -/
def buildPacket (commandBytes : List Nat) : List Nat :=
  Slip.encode (commandBytes ++ [calculateChecksum commandBytes])

def packetOn (address : Int) : Except String (List Nat) :=
  (MDP.buildOnCommand address).map buildPacket

def packetOff (address : Int) : Except String (List Nat) :=
  (MDP.buildOffCommand address).map buildPacket

def packetLevel (address level : Int) : Except String (List Nat) :=
  (MDP.buildLevelCommand address level).map buildPacket

def packetFade (address level : Int) (interval : Int := 2) (step : Int := 5) :
    Except String (List Nat) :=
  (MDP.buildFadeCommand address level interval step).map buildPacket

def packetRgbLevel (address red green blue : Int) : Except String (List Nat) :=
  (MDP.buildRgbLevelCommand address red green blue).map buildPacket

def packetRgbFade (address : Int) (red green blue : MDP.FadeChannel) :
    Except String (List Nat) :=
  (MDP.buildRgbFadeCommand address red green blue).map buildPacket

def packetFlash (address levelA levelB steps intervalA intervalB : Int) :
    Except String (List Nat) :=
  (MDP.buildFlashCommand address levelA levelB steps intervalA intervalB).map buildPacket

/-- `calculateFadeParams` from protocol.js, in exact arithmetic.
`fadeTime100ths` is `fadeTimeMs / 10`, so
`Math.round(fadeTime100ths / levelDiff)` is `jsRoundDiv fadeTimeMs (10 * levelDiff)`
and `Math.ceil(levelDiff / fadeTime100ths)` is `jsCeilDiv (10 * levelDiff) fadeTimeMs`;
when `fadeTimeMs = 0` the source divides by zero, giving `Infinity`, so
`Math.min(127, ...)` yields 127. -/
def calculateFadeParams (currentLevel targetLevel fadeTimeMs : Nat) : Nat × Nat :=
  let levelDiff : Nat := ((targetLevel : Int) - (currentLevel : Int)).natAbs
  if levelDiff = 0 then (1, 1)
  else
    let interval : Nat := jsRoundDiv fadeTimeMs (10 * levelDiff)
    let pair : Nat × Nat :=
      if 255 < interval then (255, 1)
      else if interval < 1 then
        (1, if fadeTimeMs = 0 then 127 else min 127 (jsCeilDiv (10 * levelDiff) fadeTimeMs))
      else (interval, 1)
    (max 1 (min 255 pair.1), max 1 (min 127 pair.2))

/-- `packetRgbFadeToColor`: plan each channel independently with
`calculateFadeParams` from the current colour (the source defaults the
current colour to `{r: 0, g: 0, b: 0}`), then build an RGB_FADE packet. -/
def packetRgbFadeToColor (address : Int) (red green blue : Nat) (fadeTimeMs : Nat)
    (currentColor : Nat × Nat × Nat := (0, 0, 0)) : Except String (List Nat) :=
  let redParams := calculateFadeParams currentColor.1 red fadeTimeMs
  let greenParams := calculateFadeParams currentColor.2.1 green fadeTimeMs
  let blueParams := calculateFadeParams currentColor.2.2 blue fadeTimeMs
  packetRgbFade address
    ⟨(red : Int), (redParams.1 : Int), (redParams.2 : Int)⟩
    ⟨(green : Int), (greenParams.1 : Int), (greenParams.2 : Int)⟩
    ⟨(blue : Int), (blueParams.1 : Int), (blueParams.2 : Int)⟩

end Protocol

/-! ## Simulator — src/src/simulator/index.js -/

namespace Sim

/-- Per-fixture `state` record of the simulator (the source's `on`
field is called `isOn` here because `on` is reserved in Lean). -/
structure LightState where
  isOn : Bool
  level : Nat
  r : Nat
  g : Nat
  b : Nat
deriving DecidableEq, Repr

def offState : LightState := ⟨false, 0, 0, 0, 0⟩

/-- The fixture table, keyed by address (a `Map` in the source; modelled
as an association list with at most one entry per address). -/
abbrev Table := List (Nat × LightState)

/-- The per-fixture switch of `executeCommand`.  `data.getD i 0` models
the JavaScript `data[i] || 0`. -/
def applyCmd (cmd : Nat) (data : List Nat) (st : LightState) : LightState :=
  if cmd = 0x20 then ⟨true, 255, 255, 255, 255⟩
  else if cmd = 0x21 then ⟨false, 0, 0, 0, 0⟩
  else if cmd = 0x22 then
    ⟨decide (0 < data.getD 0 0), data.getD 0 0, data.getD 0 0, data.getD 0 0, data.getD 0 0⟩
  else if cmd = 0x23 then
    ⟨decide (0 < data.getD 0 0), data.getD 0 0, data.getD 0 0, data.getD 0 0, data.getD 0 0⟩
  else if cmd = 0x2C then
    ⟨decide (0 < data.getD 0 0) || decide (0 < data.getD 1 0) || decide (0 < data.getD 2 0),
     max (data.getD 0 0) (max (data.getD 1 0) (data.getD 2 0)),
     data.getD 0 0, data.getD 1 0, data.getD 2 0⟩
  else if cmd = 0x31 then
    ⟨decide (0 < data.getD 0 0) || decide (0 < data.getD 3 0) || decide (0 < data.getD 6 0),
     max (data.getD 0 0) (max (data.getD 3 0) (data.getD 6 0)),
     data.getD 0 0, data.getD 3 0, data.getD 6 0⟩
  else st

/-- `executeCommand`: broadcast updates every fixture (via one
`executeCommand` per entry), a unicast address updates the entry with
that key and leaves a missing address untouched ("Address not found"). -/
def executeCommand (lights : Table) (address cmd : Nat) (data : List Nat) : Table :=
  if address = MDP.BROADCAST_ADDRESS then
    lights.map fun e => (e.1, applyCmd cmd data e.2)
  else
    lights.map fun e => if e.1 = address then (e.1, applyCmd cmd data e.2) else e

/-- The framing strip at the top of `processPacket`: drop one leading
0xC0, one trailing 0xC0, then the checksum byte; no SLIP unescaping is
performed.  Returns the (address, command, data) triple, or `none` when
fewer than 3 bytes remain. -/
def simParse (packet : List Nat) : Option (Nat × Nat × List Nat) :=
  let b1 := if packet.head? = some 0xC0 then packet.tail else packet
  let b2 := if b1.getLast? = some 0xC0 then b1.dropLast else b1
  let b3 := if 0 < b2.length then b2.dropLast else b2
  if b3.length < 3 then none
  else some (((b3.getD 0 0) <<< 8) ||| b3.getD 1 0, (b3.getD 2 0, b3.drop 3))

/-- `processPacket`: parse the frame and execute the command (an
unparsable frame returns `null` and leaves the table unchanged). -/
def processPacket (lights : Table) (packet : List Nat) : Table :=
  match simParse packet with
  | none => lights
  | some (a, c, d) => executeCommand lights a c d

/-- Modelled from the spec: the section 4.1-4.2 lenient diagnostic
decoder that claim C8 compares the simulator against — SLIP unescaping
(`decode` from slip.js), then dropping the trailing checksum byte with
mismatches ignored.  This definition follows the spec's words; the
source's `processPacket` is `simParse` above. -/
def specLenientParse (packet : List Nat) : Option (Nat × Nat × List Nat) :=
  let decoded := Slip.decode packet
  let body := decoded.dropLast
  if body.length < 3 then none
  else some (((body.getD 0 0) <<< 8) ||| body.getD 1 0, (body.getD 2 0, body.drop 3))

/-- Replay of a decoded frame per the spec decoder, on the same
fixture-table semantics. -/
def specProcessPacket (lights : Table) (packet : List Nat) : Table :=
  match specLenientParse packet with
  | none => lights
  | some (a, c, d) => executeCommand lights a c d

def simRun (lights : Table) (packets : List (List Nat)) : Table :=
  packets.foldl processPacket lights

def specRun (lights : Table) (packets : List (List Nat)) : Table :=
  packets.foldl specProcessPacket lights

/-- `initializeFromDatabase` registers one all-off entry per inventory
address (`Map.set`: overwrite if present, append otherwise). -/
def setEntry (lights : Table) (address : Nat) (st : LightState) : Table :=
  if lights.any fun e => e.1 = address then
    lights.map fun e => if e.1 = address then (address, st) else e
  else lights ++ [(address, st)]

def initializeFromDatabase (addrs : List Nat) (lights : Table) : Table :=
  addrs.foldl (fun t a => setEntry t a offState) lights

/-- `resetAll`: every fixture back to off. -/
def resetAll (lights : Table) : Table :=
  lights.map fun e => (e.1, offState)

/-- The simulator operations of claim C10. -/
inductive SimOp where
  | initFromDb (addrs : List Nat)
  | packet (bytes : List Nat)
  | reset
deriving Repr

def applySimOp (lights : Table) : SimOp -> Table
  | .initFromDb addrs => initializeFromDatabase addrs lights
  | .packet p => processPacket lights p
  | .reset => resetAll lights

/-- The per-fixture invariant of claim C10. -/
def InvState (st : LightState) : Prop :=
  st.level = max st.r (max st.g st.b) ∧ st.isOn = decide (0 < st.level)

instance (st : LightState) : Decidable (InvState st) := by
  unfold InvState
  infer_instance

def InvTable (lights : Table) : Prop := ∀ e ∈ lights, InvState e.2

instance (lights : Table) : Decidable (InvTable lights) := by
  unfold InvTable
  infer_instance

end Sim

/-! ## Address resolution and apartment lighting — src/unnamed/part_001
(apartments routes) joined with the sqlite accessors of
src/unnamed/part_003. -/

namespace Resolver

/-- A `state_colors` row. -/
structure StateColor where
  red : Nat
  green : Nat
  blue : Nat
  intensity : Nat
deriving DecidableEq, Repr

/-- An rgb override passed by a client; when present its `r` field is
present (the source tests `customRgb.r !== undefined`). -/
structure Rgb where
  r : Nat
  g : Nat
  b : Nat
deriving DecidableEq, Repr

/-- The colour object returned by `getStateColor`; the custom-rgb and
white fallback paths carry no `intensity` field. -/
structure ResolvedColor where
  r : Nat
  g : Nat
  b : Nat
  intensity : Option Nat
deriving DecidableEq, Repr

/-- An `apartments` row (the fields the lighting paths read). -/
structure ApartmentRow where
  id : String
  lightswarm_address : Option Nat
  tower_id : String
  floor : Int
deriving DecidableEq, Repr

/-- An `apartment_lights` row. -/
structure ApartmentLightRow where
  apartment_id : String
  light_index : Nat
  lightswarm_address : Nat
deriving DecidableEq, Repr

/-- An `amenities` row (`tower_id` and `floor` are nullable). -/
structure AmenityRow where
  id : String
  lightswarm_address : Nat
  tower_id : Option String
  floor : Option Int
deriving DecidableEq, Repr

/-- The database view consumed by the lighting paths.  The two numeric
settings stand for `parseInt(settings.get('default_fade_time_ms') || '500')`
and `parseInt(settings.get('default_intensity') || '200')` already
parsed with their defaults applied. -/
structure Database where
  defaultFadeTimeMs : Nat
  defaultIntensity : Nat
  stateColors : List (String × StateColor)
  apartments : List ApartmentRow
  amenities : List AmenityRow
  apartmentLights : List ApartmentLightRow
deriving Repr

/-- `getStateColor` from the apartments routes. -/
def getStateColor (stateColors : List (String × StateColor)) (state : String)
    (customRgb : Option Rgb) : ResolvedColor :=
  match customRgb with
  | some c => ⟨c.r, c.g, c.b, none⟩
  | none =>
    match stateColors.find? fun e => e.1 = state with
    | none => ⟨255, 255, 255, none⟩
    | some e => ⟨e.2.red, e.2.green, e.2.blue, some e.2.intensity⟩

/-- `ORDER BY light_index` of `apartmentLights.getByApartment`, as a
stable insertion sort. -/
def insertByIndex (r : ApartmentLightRow) :
    List ApartmentLightRow → List ApartmentLightRow
  | [] => [r]
  | x :: xs =>
    if r.light_index ≤ x.light_index then r :: x :: xs else x :: insertByIndex r xs

def sortByLightIndex (rows : List ApartmentLightRow) : List ApartmentLightRow :=
  rows.foldr insertByIndex []

/-- `apartmentLights.getByApartment`: the rows of one apartment, ordered
by light index. -/
def lightsGetByApartment (rows : List ApartmentLightRow) (apartmentId : String) :
    List ApartmentLightRow :=
  sortByLightIndex (rows.filter fun r => r.apartment_id = apartmentId)

/-- `getApartmentAddresses` from the apartments routes; a primary
address of 0 is falsy in `if (primaryAddress)` and therefore ignored. -/
def getApartmentAddresses (rows : List ApartmentLightRow) (apartmentId : String)
    (primaryAddress : Option Nat) : List Nat :=
  let lights := lightsGetByApartment rows apartmentId
  if lights ≠ [] then lights.map fun l => l.lightswarm_address
  else
    match primaryAddress with
    | some p => if p ≠ 0 then [p] else []
    | none => []

/-- The observable outcome of `lightApartment`: the packets handed to
`serial.send` in order, the `apartments.updateState` argument when it is
reached, and the thrown error message if any. -/
structure LightOutcome where
  sent : List (List Nat)
  stateUpdate : Option String
  error : Option String
deriving DecidableEq, Repr

/-- The `for (const address of addresses) await serial.send(...)` loop:
packets are sent until a builder throws; a throw aborts the loop. -/
def sendLoop : List (Except String (List Nat)) → List (List Nat) × Option String
  | [] => ([], none)
  | Except.ok p :: rest =>
    let out := sendLoop rest
    (p :: out.1, out.2)
  | Except.error e :: _ => ([], some e)

/-- `lightApartment` from the apartments routes. -/
def lightApartment (db : Database) (apartment : ApartmentRow) (state : String)
    (intensity fadeTimeMs : Option Nat) (rgb : Option Rgb) : LightOutcome :=
  let actualFadeTime := fadeTimeMs.getD db.defaultFadeTimeMs
  let color := getStateColor db.stateColors state rgb
  let actualIntensity := intensity.getD (color.intensity.getD db.defaultIntensity)
  let scaledR := jsRoundDiv (color.r * actualIntensity) 255
  let scaledG := jsRoundDiv (color.g * actualIntensity) 255
  let scaledB := jsRoundDiv (color.b * actualIntensity) 255
  let addresses := getApartmentAddresses db.apartmentLights apartment.id
    apartment.lightswarm_address
  if addresses = [] then
    ⟨[], none, some ("No light addresses assigned to apartment " ++ apartment.id)⟩
  else
    let packets := addresses.map fun address : Nat =>
      if 0 < actualFadeTime then
        Protocol.packetRgbFadeToColor (address : Int) scaledR scaledG scaledB actualFadeTime
      else
        Protocol.packetRgbLevel (address : Int) (scaledR : Int) (scaledG : Int) (scaledB : Int)
    let out := sendLoop packets
    match out.2 with
    | some e => ⟨out.1, none, some e⟩
    | none => ⟨out.1, some state, none⟩

end Resolver

/-! ## Session login fade-down — src/unnamed/part_001 (session routes)
with the sqlite accessors of src/unnamed/part_003. -/

namespace SessionLogin

open Resolver

/-- SQL three-valued equality of a non-null column against a bound
parameter: `col = NULL` is never true. -/
def sqlEqParam (col : String) : Option String → Bool
  | none => false
  | some t => col = t

/-- SQL equality of a nullable column against a bound parameter. -/
def sqlEqOptParam : Option String → Option String → Bool
  | some c, some t => c = t
  | _, _ => false

/-- `apartments.getByFloor(towerId, floor)`:
`WHERE tower_id = ? AND floor = ?`. -/
def aptGetByFloor (rows : List ApartmentRow) (towerId : Option String) (floor : Int) :
    List ApartmentRow :=
  rows.filter fun r => sqlEqParam r.tower_id towerId && decide (r.floor = floor)

/-- `amenities.getByFloor(towerId, floor)`:
`WHERE tower_id = ? AND floor = ?` over nullable columns. -/
def amenGetByFloor (rows : List AmenityRow) (towerId : Option String) (floor : Int) :
    List AmenityRow :=
  rows.filter fun r =>
    sqlEqOptParam r.tower_id towerId &&
      match r.floor with
      | none => false
      | some f => decide (f = floor)

/-- `apartments.getFloorRange()` (`MIN(floor)`, `MAX(floor)`); the value
for an empty table is irrelevant to the login loop and modelled as 0. -/
def getFloorRange (rows : List ApartmentRow) : Int × Int :=
  match rows with
  | [] => (0, 0)
  | r :: rest =>
    (rest.foldl (fun m x => min m x.floor) r.floor,
     rest.foldl (fun m x => max m x.floor) r.floor)

/-- `for (let floor = max_floor; floor >= min_floor; floor--)`. -/
def floorsTopDown (maxFloor minFloor : Int) : List Int :=
  if minFloor ≤ maxFloor then
    (List.range ((maxFloor - minFloor).toNat + 1)).map fun i => maxFloor - (i : Int)
  else []

/-- The FADE-to-0 packet the login loop builds for one fixture address
(a null apartment address would reach `addressToBytes` as 0). -/
def loginFadePacket (db : Database) (address : Nat) : Except String (List Nat) :=
  let fadeParams := Protocol.calculateFadeParams 255 0 db.defaultFadeTimeMs
  Protocol.packetFade (address : Int) 0 (fadeParams.1 : Int) (fadeParams.2 : Int)

/-- The packets enqueued by the login fade-down loop of the session
routes, in order: for each floor from `max_floor` down to `min_floor`,
the apartments of `getByFloor(null, floor)` then the amenities of
`getByFloor(null, floor)`. -/
def loginFadePackets (db : Database) : List (Except String (List Nat)) :=
  let range := getFloorRange db.apartments
  (floorsTopDown range.2 range.1).flatMap fun floor =>
    ((aptGetByFloor db.apartments none floor).map fun apt =>
      loginFadePacket db (apt.lightswarm_address.getD 0)) ++
    ((amenGetByFloor db.amenities none floor).map fun amenity =>
      loginFadePacket db amenity.lightswarm_address)

end SessionLogin

/-! ## Serial transmit queue — src/src/mdp/serial.js -/

namespace SerialQ

/-- Abstract state of the `SerialConnection` queue machinery: `pending`
is `commandQueue`, `current` the job picked by `processQueue` (so
`processing = current.isSome`), `completed` the jobs whose `resolve` has
run, `written` the byte stream observed by the device, and `enqueued`
the ghost history of all `send` calls. -/
structure QState where
  pending : List (List Nat)
  current : Option (List Nat)
  completed : List (List Nat)
  written : List Nat
  enqueued : List (List Nat)
deriving DecidableEq, Repr

def qInit : QState := ⟨[], none, [], [], []⟩

/-- One scheduler step of `send` / `processQueue`: `enqueue` is
`commandQueue.push`; `start` is the `shift` guarded by `processing`
being clear; `finish` is `port.write` + `port.drain` + `resolve`,
after which `processing` is cleared. -/
inductive QStep : QState → QState → Prop where
  | enqueue (s : QState) (j : List Nat) :
      QStep s ⟨s.pending ++ [j], s.current, s.completed, s.written, s.enqueued ++ [j]⟩
  | start (s : QState) (j : List Nat) (rest : List (List Nat))
      (hidle : s.current = none) (hq : s.pending = j :: rest) :
      QStep s ⟨rest, some j, s.completed, s.written, s.enqueued⟩
  | finish (s : QState) (j : List Nat) (hcur : s.current = some j) :
      QStep s ⟨s.pending, none, s.completed ++ [j], s.written ++ j, s.enqueued⟩

/-- States reachable from the initial empty queue. -/
inductive Reach : QState → Prop where
  | init : Reach qInit
  | next {s t : QState} : Reach s → QStep s t → Reach t

end SerialQ


/-! ## Helper lemmas -/

theorem jsRoundDiv_cast (a b : Nat) (hb : 0 < b) :
    (jsRoundDiv a b : Int) = ⌊(a : ℚ) / (b : ℚ) + 1 / 2⌋ := by
  have hb0 : (b : ℚ) ≠ 0 := Nat.cast_ne_zero.mpr (by omega)
  have key : (a : ℚ) / (b : ℚ) + 1 / 2
      = (((2 * a + b : Nat) : Int) : ℚ) / ((2 * b : Nat) : ℚ) := by
    push_cast
    field_simp
    ring
  rw [key, Rat.floor_intCast_div_natCast]
  unfold jsRoundDiv
  exact_mod_cast rfl

theorem jsCeilDiv_cast (a b : Nat) (hb : 0 < b) :
    (jsCeilDiv a b : Int) = ⌈(a : ℚ) / (b : ℚ)⌉ := by
  have hbq : (0 : ℚ) < (b : ℚ) := by exact_mod_cast hb
  have e := Nat.div_add_mod (a + b - 1) b
  have hr := Nat.mod_lt (a + b - 1) hb
  have hcast : ((a + b - 1 : Nat) : Int) = (a : Int) + b - 1 := by
    rw [Nat.cast_sub (show 1 ≤ a + b by omega)]
    push_cast
    ring
  have e' : (b : Int) * jsCeilDiv a b + ((a + b - 1) % b : Nat) = (a : Int) + b - 1 := by
    rw [← hcast]
    unfold jsCeilDiv
    exact_mod_cast e
  have hr' : (((a + b - 1) % b : Nat) : Int) < (b : Int) := by exact_mod_cast hr
  rw [eq_comm, Int.ceil_eq_iff]
  constructor
  · rw [lt_div_iff₀ hbq]
    have hz : ((jsCeilDiv a b : Int) - 1) * b < (a : Int) := by nlinarith
    exact_mod_cast hz
  · rw [div_le_iff₀ hbq]
    have hz : (a : Int) ≤ (jsCeilDiv a b : Int) * b := by nlinarith
    exact_mod_cast hz

namespace Slip

theorem decodeAux_end_cons (l : List Nat) :
    decodeAux false (SLIP_END :: l) = decodeAux false l := by
  simp [decodeAux]

theorem decodeAux_escEnd_cons (l : List Nat) :
    decodeAux false (SLIP_ESC :: SLIP_ESC_END :: l) = SLIP_END :: decodeAux false l := by
  simp [decodeAux, SLIP_END, SLIP_ESC, SLIP_ESC_END]

theorem decodeAux_escEsc_cons (l : List Nat) :
    decodeAux false (SLIP_ESC :: SLIP_ESC_ESC :: l) = SLIP_ESC :: decodeAux false l := by
  simp [decodeAux, SLIP_END, SLIP_ESC, SLIP_ESC_END, SLIP_ESC_ESC]

theorem decodeAux_other_cons (b : Nat) (l : List Nat)
    (h1 : b ≠ SLIP_END) (h2 : b ≠ SLIP_ESC) :
    decodeAux false (b :: l) = b :: decodeAux false l := by
  simp [decodeAux, h1, h2]

theorem decodeAux_stuff (data rest : List Nat) :
    decodeAux false (data.flatMap stuffByte ++ rest) = data ++ decodeAux false rest := by
  induction data with
  | nil => simp
  | cons b tl ih =>
    rw [List.flatMap_cons, List.append_assoc]
    by_cases hEnd : b = SLIP_END
    · subst hEnd
      rw [show stuffByte SLIP_END = [SLIP_ESC, SLIP_ESC_END] by simp [stuffByte]]
      simp only [List.cons_append, List.nil_append]
      rw [decodeAux_escEnd_cons, ih]
    · by_cases hEsc : b = SLIP_ESC
      · subst hEsc
        rw [show stuffByte SLIP_ESC = [SLIP_ESC, SLIP_ESC_ESC] by
          simp [stuffByte, SLIP_END, SLIP_ESC]]
        simp only [List.cons_append, List.nil_append]
        rw [decodeAux_escEsc_cons, ih]
      · rw [show stuffByte b = [b] by simp [stuffByte, hEnd, hEsc]]
        simp only [List.cons_append, List.nil_append]
        rw [decodeAux_other_cons b _ hEnd hEsc, ih]

theorem decode_encode (data : List Nat) : decode (encode data) = data := by
  unfold decode encode
  rw [decodeAux_end_cons, decodeAux_stuff, decodeAux_end_cons]
  simp [decodeAux]

theorem flatMap_stuffByte_of_clean (l : List Nat)
    (h : ∀ b ∈ l, b ≠ SLIP_END ∧ b ≠ SLIP_ESC) : l.flatMap stuffByte = l := by
  induction l with
  | nil => simp
  | cons b tl ih =>
    have hb := h b (by simp)
    rw [List.flatMap_cons, show stuffByte b = [b] by simp [stuffByte, hb.1, hb.2],
      List.singleton_append, ih fun x hx => h x (by simp [hx])]

end Slip

namespace MDP

theorem clampByte_lower (val lo hi : Int) :
    lo.toNat ≤ clampByte val lo hi := by
  unfold clampByte clamp
  omega

theorem clampByte_upper (val lo hi : Int) (hlohi : lo ≤ hi) :
    clampByte val lo hi ≤ hi.toNat := by
  unfold clampByte clamp
  omega

end MDP

namespace Protocol

theorem calculateFadeParams_bounds (s t d : Nat) :
    1 ≤ (calculateFadeParams s t d).1 ∧ (calculateFadeParams s t d).1 ≤ 255 ∧
    1 ≤ (calculateFadeParams s t d).2 ∧ (calculateFadeParams s t d).2 ≤ 127 := by
  unfold calculateFadeParams
  by_cases h : ((t : Int) - (s : Int)).natAbs = 0 <;> simp [h]

end Protocol

namespace Sim

theorem decide_or_max (x y z : Nat) :
    (decide (0 < x) || decide (0 < y) || decide (0 < z)) = decide (0 < max x (max y z)) := by
  rw [show (decide (0 < x) || decide (0 < y) || decide (0 < z))
      = decide (0 < x ∨ 0 < y ∨ 0 < z) by simp [Bool.or_assoc]]
  exact decide_eq_decide.mpr (by simp [lt_max_iff])

theorem invState_applyCmd (cmd : Nat) (data : List Nat) (st : LightState)
    (h : InvState st) : InvState (applyCmd cmd data st) := by
  unfold applyCmd InvState
  split
  · exact ⟨by simp, by decide⟩
  split
  · exact ⟨by simp, by decide⟩
  split
  · exact ⟨by simp, rfl⟩
  split
  · exact ⟨by simp, rfl⟩
  split
  · exact ⟨rfl, decide_or_max _ _ _⟩
  split
  · exact ⟨rfl, decide_or_max _ _ _⟩
  · exact h

end Sim

namespace SerialQ

theorem reach_invariant (s : QState) (h : Reach s) :
    s.written = s.completed.flatten ∧
    s.enqueued = s.completed ++ s.current.toList ++ s.pending := by
  induction h with
  | init => simp [qInit]
  | next _ hstep ih =>
    cases hstep with
    | enqueue j =>
      refine ⟨ih.1, ?_⟩
      simp only [ih.2]
      simp [List.append_assoc]
    | start j rest hidle hq =>
      refine ⟨ih.1, ?_⟩
      have h2 := ih.2
      rw [hidle, hq] at h2
      simpa using h2
    | finish j hcur =>
      constructor
      · simp [ih.1]
      · have h2 := ih.2
        rw [hcur] at h2
        simpa [List.append_assoc] using h2

end SerialQ


/-! ## Claim theorems -/

theorem and255_eq_mod (m : Nat) : m &&& 0xFF = m % 256 := by
  have h := Nat.and_pow_two_sub_one_eq_mod m 8
  norm_num at h
  exact h

theorem addressToBytes_ok (address : Int) (h0 : 0 ≤ address) (h1 : address ≤ 65535) :
    MDP.addressToBytes address
      = Except.ok [(address.toNat >>> 8) &&& 0xFF, address.toNat &&& 0xFF] := by
  unfold MDP.addressToBytes
  rw [if_neg (by omega)]

theorem addr_bytes_spec (n : Nat) (h : n ≤ 65535) :
    ((n >>> 8) &&& 0xFF) * 256 + (n &&& 0xFF) = n ∧
    (n >>> 8) &&& 0xFF ≤ 255 ∧ n &&& 0xFF ≤ 255 := by
  rw [Nat.shiftRight_eq_div_pow, and255_eq_mod, and255_eq_mod]
  norm_num
  omega

/-- C1: for every list of bytes P (each in 0..255),
`slip.decode (slip.encode P) = P`; `slip.encode P` begins and ends with
the delimiter byte 0xC0; a payload byte 0xC0 is stuffed as 0xDB 0xDC and
a payload byte 0xDB as 0xDB 0xDD, and decode reverses both expansions. -/
theorem C1_slip_roundtrip (P : List Nat) (hP : ∀ b ∈ P, b ≤ 255) :
    Slip.decode (Slip.encode P) = P ∧
    (Slip.encode P).head? = some 0xC0 ∧
    (Slip.encode P).getLast? = some 0xC0 ∧
    Slip.encode [0xC0] = [0xC0, 0xDB, 0xDC, 0xC0] ∧
    Slip.encode [0xDB] = [0xC0, 0xDB, 0xDD, 0xC0] ∧
    Slip.decode (Slip.encode [0xC0]) = [0xC0] ∧
    Slip.decode (Slip.encode [0xDB]) = [0xDB] := by
  refine ⟨Slip.decode_encode P, rfl, ?_, by decide, by decide, by decide, by decide⟩
  show (Slip.SLIP_END :: (P.flatMap Slip.stuffByte ++ [Slip.SLIP_END])).getLast? = some 0xC0
  rw [← List.cons_append, List.getLast?_concat]
  rfl

/-- Witness for C1 at the concrete payload [0xC0, 0xDB, 0x42]. -/
theorem C1_slip_roundtrip_witness :
    (∀ b ∈ [0xC0, 0xDB, 0x42], b ≤ 255) ∧
    Slip.decode (Slip.encode [0xC0, 0xDB, 0x42]) = [0xC0, 0xDB, 0x42] :=
  ⟨by decide, (C1_slip_roundtrip [0xC0, 0xDB, 0x42] (by decide)).1⟩

/-- C3 counterexample: the RGB_LEVEL packet for address 100 with colour
(255, 128, 64) does not carry checksum byte 0x17 — the XOR of
00 64 2C FF 80 40 is 0x77, so the claimed wire packet is wrong. -/
theorem C3_checksum_counterexample :
    ¬ (Protocol.packetRgbLevel 100 255 128 64
        = Except.ok [0xC0, 0x00, 0x64, 0x2C, 0xFF, 0x80, 0x40, 0x17, 0xC0]) := by
  decide

/-- C3 (amended): the RGB_LEVEL packet for address 100 with colour
(255, 128, 64) has pre-framing command bytes 00 64 2C FF 80 40, XOR
checksum 0x77, and framed wire packet C0 00 64 2C FF 80 40 77 C0. -/
theorem C3_rgb_level_packet :
    MDP.buildRgbLevelCommand 100 255 128 64
      = Except.ok [0x00, 0x64, 0x2C, 0xFF, 0x80, 0x40] ∧
    Protocol.calculateChecksum [0x00, 0x64, 0x2C, 0xFF, 0x80, 0x40] = 0x77 ∧
    Protocol.packetRgbLevel 100 255 128 64
      = Except.ok [0xC0, 0x00, 0x64, 0x2C, 0xFF, 0x80, 0x40, 0x77, 0xC0] :=
  ⟨rfl, by decide, rfl⟩

/-- C4 counterexample: an address outside 0..65535 is not coerced — the
encoder throws ("Invalid address"), so encoding can fail. -/
theorem C4_address_error_counterexample :
    MDP.buildLevelCommand 65536 100 = Except.error "Invalid address. Must be 0-65535." :=
  rfl

/-- C4 (amended): for every address in 0..65535 and arbitrary numeric
field values, no command encoder fails; the address is packed as
(high, low) with high * 256 + low recovering the address, encoded level
bytes lie in 0..255, intervals in 1..255 and steps in 1..127.  An
address outside 0..65535 raises an error instead of being coerced. -/
theorem C4_encoders_clamp (address : Int) (h0 : 0 ≤ address) (h1 : address ≤ 65535)
    (level interval step red green blue : Int)
    (levelA levelB flashSteps intervalA intervalB : Int)
    (rc gc bc : MDP.FadeChannel) :
    (∃ hi lo, MDP.addressToBytes address = Except.ok [hi, lo] ∧
      hi ≤ 255 ∧ lo ≤ 255 ∧ hi * 256 + lo = address.toNat) ∧
    (∃ hi lo l, MDP.buildLevelCommand address level
        = Except.ok [hi, lo, MDP.LEVEL, l] ∧ l ≤ 255) ∧
    (∃ hi lo l i s, MDP.buildFadeCommand address level interval step
        = Except.ok [hi, lo, MDP.FADE, l, i, s] ∧
      l ≤ 255 ∧ 1 ≤ i ∧ i ≤ 255 ∧ 1 ≤ s ∧ s ≤ 127) ∧
    (∃ hi lo r g b, MDP.buildRgbLevelCommand address red green blue
        = Except.ok [hi, lo, MDP.RGB_LEVEL, r, g, b] ∧ r ≤ 255 ∧ g ≤ 255 ∧ b ≤ 255) ∧
    (∃ hi lo lr ir sr lg ig sg lb ib sb,
      MDP.buildRgbFadeCommand address rc gc bc
        = Except.ok [hi, lo, MDP.RGB_FADE, lr, ir, sr, lg, ig, sg, lb, ib, sb] ∧
      lr ≤ 255 ∧ 1 ≤ ir ∧ ir ≤ 255 ∧ 1 ≤ sr ∧ sr ≤ 127 ∧
      lg ≤ 255 ∧ 1 ≤ ig ∧ ig ≤ 255 ∧ 1 ≤ sg ∧ sg ≤ 127 ∧
      lb ≤ 255 ∧ 1 ≤ ib ∧ ib ≤ 255 ∧ 1 ≤ sb ∧ sb ≤ 127) ∧
    (∃ bs, MDP.buildFlashCommand address levelA levelB flashSteps intervalA intervalB
        = Except.ok bs ∧ bs.length = 11 ∧ ∀ b ∈ bs, b ≤ 255) ∧
    (∀ a : Int, a < 0 ∨ 65535 < a →
      MDP.addressToBytes a = Except.error "Invalid address. Must be 0-65535.") := by
  have haddr := addressToBytes_ok address h0 h1
  have hn : address.toNat ≤ 65535 := by omega
  have hpack := addr_bytes_spec address.toNat hn
  have hclamp : ∀ v lo hi : Int, 0 ≤ lo → lo ≤ hi →
      lo.toNat ≤ MDP.clampByte v lo hi ∧ MDP.clampByte v lo hi ≤ hi.toNat := by
    intro v lo hi hl hh
    unfold MDP.clampByte MDP.clamp
    omega
  have hok : ∀ tail : List Nat,
      (MDP.addressToBytes address).map (· ++ tail)
        = Except.ok ([address.toNat >>> 8 &&& 0xFF, address.toNat &&& 0xFF] ++ tail) := by
    intro tail
    rw [haddr]
    rfl
  refine ⟨⟨_, _, haddr, hpack.2.1, hpack.2.2, hpack.1⟩, ?_, ?_, ?_, ?_, ?_, ?_⟩
  · exact ⟨address.toNat >>> 8 &&& 0xFF, address.toNat &&& 0xFF, MDP.clampByte level 0 255,
      hok _, (hclamp level 0 255 (by norm_num) (by norm_num)).2⟩
  · exact ⟨address.toNat >>> 8 &&& 0xFF, address.toNat &&& 0xFF, MDP.clampByte level 0 255,
      MDP.clampByte interval 1 255, MDP.clampByte step 1 127, hok _,
      (hclamp level 0 255 (by norm_num) (by norm_num)).2,
      (hclamp interval 1 255 (by norm_num) (by norm_num)).1,
      (hclamp interval 1 255 (by norm_num) (by norm_num)).2,
      (hclamp step 1 127 (by norm_num) (by norm_num)).1,
      (hclamp step 1 127 (by norm_num) (by norm_num)).2⟩
  · exact ⟨address.toNat >>> 8 &&& 0xFF, address.toNat &&& 0xFF, MDP.clampByte red 0 255,
      MDP.clampByte green 0 255, MDP.clampByte blue 0 255, hok _,
      (hclamp red 0 255 (by norm_num) (by norm_num)).2,
      (hclamp green 0 255 (by norm_num) (by norm_num)).2,
      (hclamp blue 0 255 (by norm_num) (by norm_num)).2⟩
  · exact ⟨address.toNat >>> 8 &&& 0xFF, address.toNat &&& 0xFF,
      MDP.clampByte rc.level 0 255, MDP.clampByte rc.interval 1 255, MDP.clampByte rc.step 1 127,
      MDP.clampByte gc.level 0 255, MDP.clampByte gc.interval 1 255, MDP.clampByte gc.step 1 127,
      MDP.clampByte bc.level 0 255, MDP.clampByte bc.interval 1 255, MDP.clampByte bc.step 1 127,
      hok _,
      (hclamp rc.level 0 255 (by norm_num) (by norm_num)).2,
      (hclamp rc.interval 1 255 (by norm_num) (by norm_num)).1,
      (hclamp rc.interval 1 255 (by norm_num) (by norm_num)).2,
      (hclamp rc.step 1 127 (by norm_num) (by norm_num)).1,
      (hclamp rc.step 1 127 (by norm_num) (by norm_num)).2,
      (hclamp gc.level 0 255 (by norm_num) (by norm_num)).2,
      (hclamp gc.interval 1 255 (by norm_num) (by norm_num)).1,
      (hclamp gc.interval 1 255 (by norm_num) (by norm_num)).2,
      (hclamp gc.step 1 127 (by norm_num) (by norm_num)).1,
      (hclamp gc.step 1 127 (by norm_num) (by norm_num)).2,
      (hclamp bc.level 0 255 (by norm_num) (by norm_num)).2,
      (hclamp bc.interval 1 255 (by norm_num) (by norm_num)).1,
      (hclamp bc.interval 1 255 (by norm_num) (by norm_num)).2,
      (hclamp bc.step 1 127 (by norm_num) (by norm_num)).1,
      (hclamp bc.step 1 127 (by norm_num) (by norm_num)).2⟩
  · refine ⟨[address.toNat >>> 8 &&& 0xFF, address.toNat &&& 0xFF, MDP.FLASH,
      (MDP.clampByte flashSteps 2 65535) >>> 8 &&& 0xFF, (MDP.clampByte flashSteps 2 65535) &&& 0xFF,
      (MDP.clampByte intervalA 1 65535) >>> 8 &&& 0xFF, (MDP.clampByte intervalA 1 65535) &&& 0xFF,
      (MDP.clampByte intervalB 1 65535) >>> 8 &&& 0xFF, (MDP.clampByte intervalB 1 65535) &&& 0xFF,
      MDP.clampByte levelA 0 255, MDP.clampByte levelB 0 255], hok _, rfl, ?_⟩
    intro b hb
    simp only [List.mem_cons, List.not_mem_nil, or_false] at hb
    rcases hb with h | h | h | h | h | h | h | h | h | h | h <;> subst h
    · exact hpack.2.1
    · exact hpack.2.2
    · norm_num [MDP.FLASH]
    · exact le_trans (Nat.and_le_right) (by norm_num)
    · exact le_trans (Nat.and_le_right) (by norm_num)
    · exact le_trans (Nat.and_le_right) (by norm_num)
    · exact le_trans (Nat.and_le_right) (by norm_num)
    · exact le_trans (Nat.and_le_right) (by norm_num)
    · exact le_trans (Nat.and_le_right) (by norm_num)
    · exact (hclamp levelA 0 255 (by norm_num) (by norm_num)).2
    · exact (hclamp levelB 0 255 (by norm_num) (by norm_num)).2
  · intro a ha
    unfold MDP.addressToBytes
    rw [if_pos (by omega)]

/-- Witness for C4 at address 100 with assorted out-of-range fields. -/
theorem C4_encoders_clamp_witness :
    (0 : Int) ≤ 100 ∧ (100 : Int) ≤ 65535 ∧
    (∃ hi lo l, MDP.buildLevelCommand 100 999
        = Except.ok [hi, lo, MDP.LEVEL, l] ∧ l ≤ 255) :=
  ⟨by norm_num, by norm_num,
    (C4_encoders_clamp 100 (by norm_num) (by norm_num) 999 (-3) 4096 300 (-1) 256
      512 (-7) 0 70000 70000 ⟨300, 0, 500⟩ ⟨-5, 999, -2⟩ ⟨256, 256, 256⟩).2.1⟩

/-- C2: for levels s, t in 0..255 and duration d ms,
`calculateFadeParams` returns (1, 1) when |t - s| = 0; otherwise with
u = d/10 it returns (round (u/|t-s|), 1) when that rounded interval lies
in 1..255, clamps it to 255 with step 1 when it exceeds 255, and returns
interval 1 with step min 127 ⌈|t-s|/u⌉ when it falls below 1; the result
always satisfies 1 ≤ interval ≤ 255 and 1 ≤ step ≤ 127.  Concretely,
(0, 255, 500 ms) gives (1, 6) and the FADE command bytes for address 100
to level 255 with those parameters are 00 64 23 FF 01 06. -/
theorem C2_fade_planner (s t d : Nat) (hs : s ≤ 255) (ht : t ≤ 255) :
    (1 ≤ (Protocol.calculateFadeParams s t d).1 ∧
     (Protocol.calculateFadeParams s t d).1 ≤ 255 ∧
     1 ≤ (Protocol.calculateFadeParams s t d).2 ∧
     (Protocol.calculateFadeParams s t d).2 ≤ 127) ∧
    (((t : Int) - (s : Int)).natAbs = 0 → Protocol.calculateFadeParams s t d = (1, 1)) ∧
    (∀ dlt : Nat, dlt = ((t : Int) - (s : Int)).natAbs → 0 < dlt → 0 < d →
      ∀ i : Int, i = ⌊(d : ℚ) / 10 / (dlt : ℚ) + 1 / 2⌋ →
        ((1 ≤ i → i ≤ 255 → Protocol.calculateFadeParams s t d = (i.toNat, 1)) ∧
         (255 < i → Protocol.calculateFadeParams s t d = (255, 1)) ∧
         (i < 1 → Protocol.calculateFadeParams s t d
            = (1, (min 127 ⌈(dlt : ℚ) / ((d : ℚ) / 10)⌉).toNat)))) ∧
    Protocol.calculateFadeParams 0 255 500 = (1, 6) ∧
    MDP.buildFadeCommand 100 255 1 6 = Except.ok [0x00, 0x64, 0x23, 0xFF, 0x01, 0x06] := by
  refine ⟨Protocol.calculateFadeParams_bounds s t d, ?_, ?_, by decide, rfl⟩
  · intro hz
    unfold Protocol.calculateFadeParams
    rw [if_pos hz]
  · intro dlt hdlt hpos hd i hi
    have h10 : 0 < 10 * dlt := by omega
    have hdiv : (d : ℚ) / 10 / (dlt : ℚ) = (d : ℚ) / ((10 * dlt : Nat) : ℚ) := by
      push_cast
      rw [div_div]
    have hiN : i = (jsRoundDiv d (10 * dlt) : Int) := by
      rw [hi, hdiv, jsRoundDiv_cast d (10 * dlt) h10]
    have hunfold : Protocol.calculateFadeParams s t d =
        (let interval := jsRoundDiv d (10 * dlt)
         let pair : Nat × Nat :=
           if 255 < interval then (255, 1)
           else if interval < 1 then
             (1, if d = 0 then 127 else min 127 (jsCeilDiv (10 * dlt) d))
           else (interval, 1)
         (max 1 (min 255 pair.1), max 1 (min 127 pair.2))) := by
      unfold Protocol.calculateFadeParams
      rw [← hdlt, if_neg (by omega)]
    refine ⟨?_, ?_, ?_⟩
    · intro hge hle
      have hge' : 1 ≤ jsRoundDiv d (10 * dlt) := by omega
      have hle' : jsRoundDiv d (10 * dlt) ≤ 255 := by omega
      rw [hunfold]
      simp only [if_neg (show ¬ 255 < jsRoundDiv d (10 * dlt) by omega),
        if_neg (show ¬ jsRoundDiv d (10 * dlt) < 1 by omega)]
      rw [Prod.mk.injEq]
      constructor
      · omega
      · omega
    · intro hgt
      have hgt' : 255 < jsRoundDiv d (10 * dlt) := by omega
      rw [hunfold]
      simp only [if_pos hgt']
      decide
    · intro hlt
      have hlt' : jsRoundDiv d (10 * dlt) < 1 := by omega
      have hceil : ⌈(dlt : ℚ) / ((d : ℚ) / 10)⌉ = (jsCeilDiv (10 * dlt) d : Int) := by
        rw [jsCeilDiv_cast (10 * dlt) d hd]
        congr 1
        rw [div_div_eq_mul_div]
        push_cast
        ring
      have hjc : 1 ≤ jsCeilDiv (10 * dlt) d := by
        unfold jsCeilDiv
        rw [Nat.le_div_iff_mul_le hd]
        omega
      rw [hunfold]
      simp only [if_neg (show ¬ 255 < jsRoundDiv d (10 * dlt) by omega), if_pos hlt',
        if_neg (show ¬ d = 0 by omega)]
      rw [hceil, Prod.mk.injEq]
      constructor
      · omega
      · omega

/-- Witness for C2 at s = 0, t = 255, d = 500 ms. -/
theorem C2_fade_planner_witness :
    (0 : Nat) ≤ 255 ∧ (255 : Nat) ≤ 255 ∧ Protocol.calculateFadeParams 0 255 500 = (1, 6) :=
  ⟨by norm_num, le_refl 255, (C2_fade_planner 0 255 500 (by norm_num) (le_refl 255)).2.2.2.1⟩

theorem sendLoop_ok (ps : List (Except String (List Nat)))
    (h : ∀ p ∈ ps, ∃ bs, p = Except.ok bs) :
    (Resolver.sendLoop ps).2 = none ∧
    List.Forall₂ (fun p q => p = Except.ok q) ps (Resolver.sendLoop ps).1 := by
  induction ps with
  | nil => exact ⟨rfl, List.Forall₂.nil⟩
  | cons p rest ih =>
    obtain ⟨bs, hbs⟩ := h p (by simp)
    subst hbs
    have hrest := ih fun q hq => h q (by simp [hq])
    exact ⟨hrest.1, List.Forall₂.cons rfl hrest.2⟩

theorem packetRgbLevel_ok (a : Nat) (h : a ≤ 65535) (r g b : Int) :
    ∃ bs, Protocol.packetRgbLevel (a : Int) r g b = Except.ok bs := by
  unfold Protocol.packetRgbLevel MDP.buildRgbLevelCommand
  rw [addressToBytes_ok _ (by omega) (by omega)]
  exact ⟨_, rfl⟩

theorem packetRgbFadeToColor_ok (a : Nat) (h : a ≤ 65535) (r g b ft : Nat) :
    ∃ bs, Protocol.packetRgbFadeToColor (a : Int) r g b ft = Except.ok bs := by
  unfold Protocol.packetRgbFadeToColor Protocol.packetRgbFade MDP.buildRgbFadeCommand
  rw [addressToBytes_ok _ (by omega) (by omega)]
  exact ⟨_, rfl⟩

/-- C6: if an apartment exists but has no fixture addresses — no
apartment_lights rows for it and no primary lightswarm_address — then
lighting it fails with the "no addresses" error, no packet is sent to
the transport, and no state update is recorded. -/
theorem C6_no_addresses (db : Resolver.Database) (apartment : Resolver.ApartmentRow)
    (state : String) (intensity fadeTimeMs : Option Nat) (rgb : Option Resolver.Rgb)
    (hrows : db.apartmentLights.filter (fun r => r.apartment_id = apartment.id) = [])
    (hprim : apartment.lightswarm_address = none) :
    Resolver.lightApartment db apartment state intensity fadeTimeMs rgb
      = ⟨[], none, some ("No light addresses assigned to apartment " ++ apartment.id)⟩ := by
  have haddr : Resolver.getApartmentAddresses db.apartmentLights apartment.id
      apartment.lightswarm_address = [] := by
    unfold Resolver.getApartmentAddresses Resolver.lightsGetByApartment
    rw [hrows, hprim]
    simp [Resolver.sortByLightIndex]
  unfold Resolver.lightApartment
  simp only [haddr]
  simp

/-- Witness for C6 at a concrete apartment with no lights. -/
theorem C6_no_addresses_witness :
    (Resolver.Database.mk 500 200 [] [] [] []).apartmentLights.filter
        (fun r => r.apartment_id = "A1") = [] ∧
    Resolver.lightApartment ⟨500, 200, [], [], [], []⟩ ⟨"A1", none, "T1", 3⟩ "AVAILABLE"
        none none none
      = ⟨[], none, some "No light addresses assigned to apartment A1"⟩ := by
  refine ⟨rfl, ?_⟩
  exact C6_no_addresses ⟨500, 200, [], [], [], []⟩ ⟨"A1", none, "T1", 3⟩ "AVAILABLE"
    none none none rfl rfl

/-- C5 counterexample: with resolved colour (1,1,1), intensity 128 and
fade time 0, the emitted RGB_LEVEL packet carries channel byte
round(1·128/255) = 1, whereas the claimed scaling
⌊1·128/255⌋ = 0 would give channel byte 0 — the code rounds, it does
not floor. -/
theorem C5_scaling_counterexample :
    (Resolver.lightApartment ⟨500, 200, [], [], [], []⟩ ⟨"A1", some 5, "T1", 1⟩ "SELECTED"
        (some 128) (some 0) (some ⟨1, 1, 1⟩)).sent
      = [[0xC0, 0x00, 0x05, 0x2C, 0x01, 0x01, 0x01, 0x28, 0xC0]] ∧
    ⌊(1 * 128 : ℚ) / 255⌋ = 0 ∧
    (0x01 : Nat) ≠ (⌊(1 * 128 : ℚ) / 255⌋).toNat := by
  have hfloor : ⌊(1 * 128 : ℚ) / 255⌋ = 0 := by
    rw [show ((1 * 128 : ℚ)) = ((128 : Int) : ℚ) by norm_num,
      show ((255 : ℚ)) = ((255 : Nat) : ℚ) by norm_num,
      Rat.floor_intCast_div_natCast]
    decide
  refine ⟨by decide, hfloor, ?_⟩
  rw [hfloor]
  decide

/-- C5 (amended): when lighting an apartment with resolved colour
(r, g, b) and effective intensity i, each channel is scaled as
round(channel · i / 255) = ⌊channel · i / 255 + 1/2⌋ (not floor); if the
effective fade time is positive the resolver emits an RGB_FADE packet
planned per channel from an assumed current level of 0, otherwise an
RGB_LEVEL packet; exactly one packet is enqueued per fixture address (in
address-list order), no error occurs, and the state update is
recorded. -/
theorem C5_light_apartment (db : Resolver.Database) (apartment : Resolver.ApartmentRow)
    (state : String) (intensity fadeTimeMs : Option Nat) (rgb : Option Resolver.Rgb)
    (addresses : List Nat)
    (haddr : addresses = Resolver.getApartmentAddresses db.apartmentLights apartment.id
      apartment.lightswarm_address)
    (hne : addresses ≠ [])
    (hvalid : ∀ a ∈ addresses, a ≤ 65535)
    (color : Resolver.ResolvedColor)
    (hcolor : color = Resolver.getStateColor db.stateColors state rgb)
    (i ft : Nat)
    (hi : i = intensity.getD (color.intensity.getD db.defaultIntensity))
    (hft : ft = fadeTimeMs.getD db.defaultFadeTimeMs)
    (sr sg sb : Nat)
    (hsr : (sr : Int) = ⌊((color.r * i : Nat) : ℚ) / 255 + 1 / 2⌋)
    (hsg : (sg : Int) = ⌊((color.g * i : Nat) : ℚ) / 255 + 1 / 2⌋)
    (hsb : (sb : Int) = ⌊((color.b * i : Nat) : ℚ) / 255 + 1 / 2⌋) :
    (Resolver.lightApartment db apartment state intensity fadeTimeMs rgb).error = none ∧
    (Resolver.lightApartment db apartment state intensity fadeTimeMs rgb).stateUpdate
      = some state ∧
    List.Forall₂ (fun (a : Nat) p =>
        (if 0 < ft then Protocol.packetRgbFadeToColor (a : Int) sr sg sb ft
         else Protocol.packetRgbLevel (a : Int) (sr : Int) (sg : Int) (sb : Int))
          = Except.ok p)
      addresses (Resolver.lightApartment db apartment state intensity fadeTimeMs rgb).sent := by
  have hsr' : sr = jsRoundDiv (color.r * i) 255 := by
    have hc := jsRoundDiv_cast (color.r * i) 255 (by norm_num)
    push_cast at hc hsr
    omega
  have hsg' : sg = jsRoundDiv (color.g * i) 255 := by
    have hc := jsRoundDiv_cast (color.g * i) 255 (by norm_num)
    push_cast at hc hsg
    omega
  have hsb' : sb = jsRoundDiv (color.b * i) 255 := by
    have hc := jsRoundDiv_cast (color.b * i) 255 (by norm_num)
    push_cast at hc hsb
    omega
  have hok : ∀ p ∈ addresses.map fun address : Nat =>
      (if 0 < ft then Protocol.packetRgbFadeToColor (address : Int) sr sg sb ft
       else Protocol.packetRgbLevel (address : Int) (sr : Int) (sg : Int) (sb : Int)),
      ∃ bs, p = Except.ok bs := by
    intro p hp
    rw [List.mem_map] at hp
    obtain ⟨a, ha, hpa⟩ := hp
    subst hpa
    by_cases hftpos : 0 < ft
    · rw [if_pos hftpos]
      exact packetRgbFadeToColor_ok a (hvalid a ha) sr sg sb ft
    · rw [if_neg hftpos]
      exact packetRgbLevel_ok a (hvalid a ha) sr sg sb
  obtain ⟨hdone, hfa⟩ := sendLoop_ok _ hok
  unfold Resolver.lightApartment
  simp only [← hcolor, ← hft, ← hi, ← hsr', ← hsg', ← hsb', ← haddr, if_neg hne, hdone]
  refine ⟨trivial, trivial, ?_⟩
  exact List.forall₂_map_left_iff.mp hfa

/-- Witness for C5 at a one-address apartment with custom colour
(1, 1, 1), intensity 128 and fade time 0. -/
theorem C5_light_apartment_witness :
    ([5] : List Nat) ≠ [] ∧
    (Resolver.lightApartment ⟨500, 200, [], [], [], []⟩ ⟨"A1", some 5, "T1", 1⟩ "SELECTED"
        (some 128) (some 0) (some ⟨1, 1, 1⟩)).error = none := by
  have hfloor : ((1 : Nat) : Int) = ⌊((1 * 128 : Nat) : ℚ) / 255 + 1 / 2⌋ := by
    have hc := jsRoundDiv_cast (1 * 128) 255 (by norm_num)
    have hv : jsRoundDiv (1 * 128) 255 = 1 := by decide
    rw [hv] at hc
    push_cast at hc ⊢
    omega
  refine ⟨by decide, ?_⟩
  exact (C5_light_apartment ⟨500, 200, [], [], [], []⟩ ⟨"A1", some 5, "T1", 1⟩ "SELECTED"
    (some 128) (some 0) (some ⟨1, 1, 1⟩) [5] rfl (by decide) (by decide)
    ⟨1, 1, 1, none⟩ rfl 128 0 rfl rfl 1 1 1 hfloor hfloor hfloor).1

/-- C7 (code bug): the login fade-down queries
`apartments.getByFloor(null, floor)` and `amenities.getByFloor(null, floor)`;
the SQL comparison `tower_id = NULL` is never true, so the loop selects
no rows on any floor and enqueues no FADE packet at all — for every
database, including a two-floor installation with fixtures on floors 9
and 10.  The spec (and the route's own documentation) instead promise a
fade-to-0 packet for every fixture, floor by floor. -/
theorem C7_login_fade_emits_nothing :
    (∀ db : Resolver.Database, SessionLogin.loginFadePackets db = []) ∧
    SessionLogin.loginFadePackets
      ⟨500, 200, [], [⟨"A1001", some 10, "T1", 10⟩, ⟨"A0901", some 9, "T1", 9⟩], [], []⟩
      = [] ∧
    (Resolver.Database.mk 500 200 []
      [⟨"A1001", some 10, "T1", 10⟩, ⟨"A0901", some 9, "T1", 9⟩] [] []).apartments ≠ [] := by
  have hapt : ∀ (rows : List Resolver.ApartmentRow) (floor : Int),
      SessionLogin.aptGetByFloor rows none floor = [] := by
    intro rows floor
    unfold SessionLogin.aptGetByFloor
    simp [SessionLogin.sqlEqParam]
  have hamen : ∀ (rows : List Resolver.AmenityRow) (floor : Int),
      SessionLogin.amenGetByFloor rows none floor = [] := by
    intro rows floor
    unfold SessionLogin.amenGetByFloor
    simp [SessionLogin.sqlEqOptParam]
  have hmain : ∀ db : Resolver.Database, SessionLogin.loginFadePackets db = [] := by
    intro db
    unfold SessionLogin.loginFadePackets
    simp [hapt, hamen]
  exact ⟨hmain, hmain _, by decide⟩

theorem simParse_spec_agree (cb : List Nat) (h3 : 3 ≤ cb.length)
    (hclean : ∀ b ∈ cb ++ [Protocol.calculateChecksum cb], b ≠ 0xC0 ∧ b ≠ 0xDB) :
    Sim.simParse (Protocol.buildPacket cb)
      = some (((cb.getD 0 0) <<< 8) ||| cb.getD 1 0, (cb.getD 2 0, cb.drop 3)) ∧
    Sim.specLenientParse (Protocol.buildPacket cb)
      = some (((cb.getD 0 0) <<< 8) ||| cb.getD 1 0, (cb.getD 2 0, cb.drop 3)) := by
  have hstuff : (cb ++ [Protocol.calculateChecksum cb]).flatMap Slip.stuffByte
      = cb ++ [Protocol.calculateChecksum cb] :=
    Slip.flatMap_stuffByte_of_clean _ hclean
  have hpacket : Protocol.buildPacket cb
      = 0xC0 :: ((cb ++ [Protocol.calculateChecksum cb]) ++ [0xC0]) := by
    unfold Protocol.buildPacket Slip.encode
    rw [hstuff]
    rfl
  constructor
  · rw [hpacket]
    unfold Sim.simParse
    dsimp only
    have c1 : ((0xC0 : Nat) :: ((cb ++ [Protocol.calculateChecksum cb]) ++ [0xC0])).head?
        = some 0xC0 := rfl
    rw [if_pos c1, List.tail_cons]
    have c2 : ((cb ++ [Protocol.calculateChecksum cb]) ++ [0xC0]).getLast?
        = some (0xC0 : Nat) := List.getLast?_concat _
    rw [if_pos c2, List.dropLast_concat]
    have c3 : 0 < (cb ++ [Protocol.calculateChecksum cb]).length := by simp
    rw [if_pos c3, List.dropLast_concat]
    rw [if_neg (show ¬ cb.length < 3 by omega)]
  · rw [hpacket, show ((0xC0 : Nat) :: ((cb ++ [Protocol.calculateChecksum cb]) ++ [0xC0]))
        = Slip.encode (cb ++ [Protocol.calculateChecksum cb]) by
      unfold Slip.encode
      rw [hstuff]
      rfl]
    unfold Sim.specLenientParse
    rw [Slip.decode_encode]
    dsimp only
    rw [List.dropLast_concat]
    rw [if_neg (show ¬ cb.length < 3 by omega)]

/-- C8 counterexample: a wire packet whose frame contains an escaped
byte — the LEVEL command for address 0x00C0 — is read differently by the
simulator (which never unescapes) and by the section 4.1-4.2 decoder:
the simulator sees address 0x00DB with opcode 0xDC, the decoder address
0x00C0 with opcode 0x22. -/
theorem C8_escape_counterexample :
    Sim.simParse (Protocol.buildPacket [0x00, 0xC0, 0x22, 0x01])
      ≠ Sim.specLenientParse (Protocol.buildPacket [0x00, 0xC0, 0x22, 0x01]) := by
  decide

/-- C8 (amended): for wire packets whose pre-framing bytes (command
bytes plus checksum) contain neither 0xC0 nor 0xDB — so SLIP stuffing is
the identity — the simulator's frame strip recovers the same (address,
opcode, payload) triple as the spec's lenient section 4.1-4.2 decoder,
and replaying any finite sequence of such packets leaves the simulator's
fixture table equal to the spec replay from the same initial table (in
particular the all-off table). -/
theorem C8_simulator_mirror (frames : List (List Nat))
    (h : ∀ cb ∈ frames, 3 ≤ cb.length ∧
      ∀ b ∈ cb ++ [Protocol.calculateChecksum cb], b ≠ 0xC0 ∧ b ≠ 0xDB) :
    (∀ cb ∈ frames, Sim.simParse (Protocol.buildPacket cb)
        = Sim.specLenientParse (Protocol.buildPacket cb)) ∧
    ∀ t : Sim.Table, Sim.simRun t (frames.map Protocol.buildPacket)
        = Sim.specRun t (frames.map Protocol.buildPacket) := by
  have hagree : ∀ cb ∈ frames, Sim.simParse (Protocol.buildPacket cb)
      = Sim.specLenientParse (Protocol.buildPacket cb) := by
    intro cb hcb
    have hs := simParse_spec_agree cb (h cb hcb).1 (h cb hcb).2
    rw [hs.1, hs.2]
  refine ⟨hagree, ?_⟩
  have hrun : ∀ (fs : List (List Nat)),
      (∀ cb ∈ fs, Sim.simParse (Protocol.buildPacket cb)
        = Sim.specLenientParse (Protocol.buildPacket cb)) →
      ∀ t : Sim.Table, Sim.simRun t (fs.map Protocol.buildPacket)
        = Sim.specRun t (fs.map Protocol.buildPacket) := by
    intro fs
    induction fs with
    | nil => intro _ t; rfl
    | cons cb rest ih =>
      intro hall t
      have hhead := hall cb (by simp)
      have hstep : Sim.processPacket t (Protocol.buildPacket cb)
          = Sim.specProcessPacket t (Protocol.buildPacket cb) := by
        unfold Sim.processPacket Sim.specProcessPacket
        rw [hhead]
      unfold Sim.simRun Sim.specRun
      rw [List.map_cons, List.foldl_cons, List.foldl_cons, hstep]
      exact ih (fun c hc => hall c (by simp [hc])) _
  exact hrun frames hagree

/-- Witness for C8 at a single escape-free LEVEL packet. -/
theorem C8_simulator_mirror_witness :
    (∀ cb ∈ [[0x00, 0x05, 0x22, 0x01]], 3 ≤ cb.length ∧
      ∀ b ∈ cb ++ [Protocol.calculateChecksum cb], b ≠ 0xC0 ∧ b ≠ 0xDB) ∧
    Sim.simRun [] ([[0x00, 0x05, 0x22, 0x01]].map Protocol.buildPacket)
      = Sim.specRun [] ([[0x00, 0x05, 0x22, 0x01]].map Protocol.buildPacket) :=
  ⟨by decide, (C8_simulator_mirror [[0x00, 0x05, 0x22, 0x01]] (by decide)).2 []⟩

/-- C9: for any sequence of send calls, the byte stream observed by the
device is the concatenation of the complete per-job byte sequences in
enqueue order (jobs complete in enqueue order, completed jobs forming a
prefix of the enqueue history), and a step never starts a new job while
another is in flight — the previous job's bytes are written and drained
(its `finish` step) before the next `start`. -/
theorem C9_transport_fifo (s : SerialQ.QState) (h : SerialQ.Reach s) :
    s.written = s.completed.flatten ∧
    s.enqueued = s.completed ++ s.current.toList ++ s.pending ∧
    (∀ t u : SerialQ.QState, SerialQ.QStep t u →
      u.current ≠ t.current → u.current ≠ none → t.current = none) := by
  refine ⟨(SerialQ.reach_invariant s h).1, (SerialQ.reach_invariant s h).2, ?_⟩
  intro t u hstep hne hnn
  cases hstep with
  | enqueue j => exact absurd rfl hne
  | start j rest hidle hq => exact hidle
  | finish j hcur => exact absurd rfl hnn

/-- Witness for C9: a queue that enqueued, started and finished the job
[1, 2] has written exactly those bytes. -/
theorem C9_transport_fifo_witness :
    SerialQ.Reach ⟨[], none, [[1, 2]], [1, 2], [[1, 2]]⟩ ∧
    (SerialQ.QState.mk [] none [[1, 2]] [1, 2] [[1, 2]]).written
      = (SerialQ.QState.mk [] none [[1, 2]] [1, 2] [[1, 2]]).completed.flatten := by
  have r1 : SerialQ.Reach ⟨[[1, 2]], none, [], [], [[1, 2]]⟩ :=
    SerialQ.Reach.next SerialQ.Reach.init (SerialQ.QStep.enqueue SerialQ.qInit [1, 2])
  have r2 : SerialQ.Reach ⟨[], some [1, 2], [], [], [[1, 2]]⟩ :=
    SerialQ.Reach.next r1 (SerialQ.QStep.start _ [1, 2] [] rfl rfl)
  have r3 : SerialQ.Reach ⟨[], none, [[1, 2]], [1, 2], [[1, 2]]⟩ :=
    SerialQ.Reach.next r2 (SerialQ.QStep.finish _ [1, 2] rfl)
  exact ⟨r3, (C9_transport_fifo _ r3).1⟩

theorem invTable_executeCommand (t : Sim.Table) (a c : Nat) (d : List Nat)
    (h : Sim.InvTable t) : Sim.InvTable (Sim.executeCommand t a c d) := by
  unfold Sim.executeCommand
  split
  · intro e he
    rw [List.mem_map] at he
    obtain ⟨x, hx, hxe⟩ := he
    subst hxe
    exact Sim.invState_applyCmd c d x.2 (h x hx)
  · intro e he
    rw [List.mem_map] at he
    obtain ⟨x, hx, hxe⟩ := he
    subst hxe
    split
    · exact Sim.invState_applyCmd c d x.2 (h x hx)
    · exact h x hx

theorem invTable_setEntry (t : Sim.Table) (a : Nat) (st : Sim.LightState)
    (hst : Sim.InvState st) (h : Sim.InvTable t) : Sim.InvTable (Sim.setEntry t a st) := by
  unfold Sim.setEntry
  split
  · intro e he
    rw [List.mem_map] at he
    obtain ⟨x, hx, hxe⟩ := he
    subst hxe
    split
    · exact hst
    · exact h x hx
  · intro e he
    rw [List.mem_append] at he
    rcases he with he | he
    · exact h e he
    · rw [List.mem_singleton] at he
      subst he
      exact hst

theorem invTable_initialize_aux : ∀ (addrs : List Nat) (t : Sim.Table), Sim.InvTable t →
    Sim.InvTable (List.foldl (fun t a => Sim.setEntry t a Sim.offState) t addrs)
  | [], _, h => h
  | a :: rest, t, h =>
    invTable_initialize_aux rest _ (invTable_setEntry t a Sim.offState (by decide) h)

/-- C10: every simulator operation — initializeFromDatabase,
processPacket (every opcode, unknown opcodes and broadcast included) and
resetAll — preserves the per-fixture invariant level = max(r, g, b) and
on = (level > 0); hence every fixture table reachable from the empty
table satisfies the invariant. -/
theorem C10_simulator_invariant :
    (∀ (t : Sim.Table) (op : Sim.SimOp),
      Sim.InvTable t → Sim.InvTable (Sim.applySimOp t op)) ∧
    (∀ ops : List Sim.SimOp, Sim.InvTable (List.foldl Sim.applySimOp [] ops)) := by
  have hstep : ∀ (t : Sim.Table) (op : Sim.SimOp),
      Sim.InvTable t → Sim.InvTable (Sim.applySimOp t op) := by
    intro t op h
    cases op with
    | initFromDb addrs => exact invTable_initialize_aux addrs t h
    | packet p =>
      show Sim.InvTable (Sim.processPacket t p)
      unfold Sim.processPacket
      split
      · exact h
      · exact invTable_executeCommand _ _ _ _ h
    | reset =>
      show Sim.InvTable (Sim.resetAll t)
      intro e he
      unfold Sim.resetAll at he
      rw [List.mem_map] at he
      obtain ⟨x, hx, hxe⟩ := he
      subst hxe
      exact (by decide : Sim.InvState Sim.offState)
  refine ⟨hstep, ?_⟩
  have hall : ∀ (ops : List Sim.SimOp) (t : Sim.Table), Sim.InvTable t →
      Sim.InvTable (List.foldl Sim.applySimOp t ops) := by
    intro ops
    induction ops with
    | nil => intro t h; exact h
    | cons op rest ih =>
      intro t h
      rw [List.foldl_cons]
      exact ih _ (hstep t op h)
  exact fun ops => hall ops [] (by intro e he; exact absurd he (List.not_mem_nil e))

/-- Witness for C10: one step of the invariant preservation at a
concrete table and an ON packet. -/
theorem C10_simulator_invariant_witness :
    Sim.InvTable [(5, ⟨true, 3, 1, 2, 3⟩)] ∧
    Sim.InvTable (Sim.applySimOp [(5, ⟨true, 3, 1, 2, 3⟩)]
      (Sim.SimOp.packet [0xC0, 0x00, 0x05, 0x20, 0x25, 0xC0])) :=
  ⟨by decide, C10_simulator_invariant.1 _ _ (by decide)⟩
